import Mathlib

/-!
Shallow embedding of the task-management backend's ingestion and lifecycle
controllers (`src/backend/controllers/taskController.js`), together with the
agent model (`src/backend/models/Agent.js`).  Mongo documents are modelled as
Lean structures, the Mongo collections as Lean lists, and each Express
handler as a pure function from its inputs (and the relevant collection
snapshots) to an `Except`-style result mirroring the handler's HTTP response
and database effect.  Identifiers (`ObjectId`s) are modelled as `Nat`; a
missing JS value (`undefined`) is `Option.none`.
-/

set_option linter.unusedVariables false

namespace TaskApp

/-- An agent document (`agentSchema`): the fields the task controller reads
(`_id`, `name`, `email`).  `_id` is rendered as `id : Nat`. -/
structure Agent where
  id : Nat
  name : String
  email : String
deriving Repr, DecidableEq, Inhabited

/-- One parsed row of an uploaded CSV/XLSX file, after the parser library has
turned it into a JS object.  The controller destructures exactly the columns
`FirstName`, `Phone`, `Notes` (a column absent from the row is `none`); any
other columns of the row (`extra`) are never read. -/
structure Row where
  firstName : Option String
  phone : Option String
  notes : Option String
  extra : List (String × String) := []
deriving Repr, DecidableEq

/-- JS truthiness of an optional string: `undefined` and the empty string are
falsy, every other string is truthy.  This is the test `FirstName && Phone`
performs on the destructured row fields. -/
def truthy : Option String → Bool
  | none => false
  | some s => s ≠ ""

/-- The JS `String.prototype.trim()`: strip whitespace characters from both
ends of the string. -/
def jsTrim (s : String) : String :=
  String.mk (((s.toList.dropWhile Char.isWhitespace).reverse.dropWhile
    Char.isWhitespace).reverse)

/-- A candidate record pushed onto `results` by the upload handler. -/
structure CandidateRecord where
  firstName : String
  phone : String
  notes : String
deriving Repr, DecidableEq

/-- The per-row body of the upload handler's loop: `if (FirstName && Phone)`
push `{ firstName: FirstName.trim(), phone: Phone.trim(),
notes: Notes?.trim() || '' }`, otherwise skip the row. -/
def parseRow (data : Row) : Option CandidateRecord :=
  if truthy data.firstName && truthy data.phone then
    some { firstName := jsTrim (data.firstName.getD "")
           phone := jsTrim (data.phone.getD "")
           notes := ((data.notes.map jsTrim).getD "") }
  else none

/-- The row loop of `draftUpload` over the decoded rows, in origin order
(both the XLSX `forEach` and the CSV stream push in row order). -/
def parseRows (rows : List Row) : List CandidateRecord :=
  rows.filterMap parseRow

/-- One entry of the draft returned by `draftUpload`: the candidate record
spread together with `agentId`, `assignedTo` and the denormalized
`draftAssignedTo` summary. -/
structure DraftTask where
  firstName : String
  phone : String
  notes : String
  agentId : Nat
  assignedTo : Nat
  draftAssignedTo : Agent
deriving Repr, DecidableEq

/-- The success payload of `draftUpload`: `{ total: draft.length, draft }`. -/
structure DraftResponse where
  total : Nat
  draft : List DraftTask
deriving Repr, DecidableEq

/-- Error responses of `draftUpload` (400-level branches). -/
inductive UploadError where
  | noAgentsAvailable
  | unsupportedFileType
deriving Repr, DecidableEq

/-- The `draftUpload` handler for a successfully decoded tabular file:
fails when `Agent.find()` returns no agents, otherwise filters the rows,
and assigns `results[index]` to `agents[index % agents.length]`.  The
response is never persisted.  (`agents.getD _ default` is the bounds-safe
rendering of the JS index `agents[index % agents.length]`, which is always
in range because `agents.length ≥ 1` past the guard.) -/
def draftUpload (agents : List Agent) (rows : List Row) :
    Except UploadError DraftResponse :=
  if agents.length = 0 then .error .noAgentsAvailable
  else
    let results := parseRows rows
    let draft := results.mapIdx fun index task =>
      let agent := agents.getD (index % agents.length) default
      { firstName := task.firstName
        phone := task.phone
        notes := task.notes
        agentId := agent.id
        assignedTo := agent.id
        draftAssignedTo := agent : DraftTask }
    .ok { total := draft.length, draft := draft }

/-- A caller-supplied entry of the `confirmDraft` request body (`tasks`
array).  `draftAssignedTo` is the `id` reached by `task.draftAssignedTo?.id`
(`none` when the object or its id is absent). -/
structure DraftEntry where
  firstName : String
  phone : String
  notes : Option String
  draftAssignedTo : Option Nat
  agentId : Option Nat
  assignedTo : Option Nat
deriving Repr, DecidableEq

/-- A task document as built by `confirmDraft` and stored by
`Task.insertMany`, and as later read by the lifecycle handlers.  `id` is the
`_id` assigned at insertion. -/
structure Task where
  id : Nat
  firstName : String
  phone : String
  notes : String
  agentId : Option Nat
  assignedTo : Option Nat
  status : String
  isFinalized : Bool
deriving Repr, DecidableEq

/-- The fields `confirmDraft` computes for one entry before insertion:
`firstName` and `phone` copied verbatim, `notes: task.notes || ''`,
`agentId: task.draftAssignedTo?.id || task.agentId`,
`assignedTo: task.draftAssignedTo?.id || task.assignedTo`,
`status: 'pending'`, `isFinalized: false`.  No field is validated and the
agent collection is never consulted.  `id` models the `_id` Mongo assigns
at insertion (position in the batch here). -/
def processEntry (id : Nat) (task : DraftEntry) : Task :=
  { id := id
    firstName := task.firstName
    phone := task.phone
    notes := task.notes.getD ""
    agentId := (task.draftAssignedTo).orElse fun _ => task.agentId
    assignedTo := (task.draftAssignedTo).orElse fun _ => task.assignedTo
    status := "pending"
    isFinalized := false }

/-- The `taskSchema` validation that `Task.insertMany` applies to each
document (the Task model, `src/unnamed/part_006`): `firstName` and `phone`
are `required: true` — mongoose's required validator for a `String` path
rejects a missing or empty value — and `status` must lie in the schema's
enum.  `agentId` and `assignedTo` are plain `ObjectId` references (`ref`
does not check existence), so they are not validated. -/
def taskSchemaValid (t : Task) : Bool :=
  t.firstName ≠ "" && t.phone ≠ "" &&
    (["pending", "in-progress", "completed", "failed"] : List String).contains t.status

/-- Success payload of `confirmDraft`: `{ message, count: inserted.length }`. -/
structure ConfirmResponse where
  message : String
  count : Nat
deriving Repr, DecidableEq

/-- Error responses of `confirmDraft`: its explicit 400 branch
(`noTasksProvided`), and the catch-all 500 path (`validationFailed`) taken
when `Task.insertMany` throws a `ValidationError` because a document
violates `taskSchema`.  The thrown error aborts the batch — nothing is
inserted. -/
inductive ConfirmError where
  | noTasksProvided
  | validationFailed
deriving Repr, DecidableEq

/-- The `confirmDraft` handler: rejects an empty `tasks` array, otherwise
maps every entry through the fixed field-copying rule and bulk-inserts the
result with `Task.insertMany`, which validates every document against
`taskSchema` and rejects the whole batch when any document fails (the
handler's catch turns this into a 500; no task is inserted).  The first
component of the success value is the list of task documents inserted into
the store.  The handler never reads the agent collection, so `agents` is
unused — it is kept as a parameter to state that fact. -/
def confirmDraft (agents : List Agent) (tasks : List DraftEntry) :
    Except ConfirmError (List Task × ConfirmResponse) :=
  if tasks.length = 0 then .error .noTasksProvided
  else
    let processedTasks := tasks.mapIdx fun i task => processEntry i task
    if processedTasks.all taskSchemaValid then
      .ok (processedTasks,
           { message := "Tasks saved successfully", count := processedTasks.length })
    else .error .validationFailed

/-- Caller roles decoded from the JWT (`role: 'admin'` or `role: 'agent'`). -/
inductive Role where
  | admin
  | agent
deriving Repr, DecidableEq

/-- The caller identity (`req.user`): its `id` and `role`. -/
structure Identity where
  id : Nat
  role : Role
deriving Repr, DecidableEq

/-- The status whitelist of `updateTaskStatus`. -/
def allowedStatuses : List String := ["pending", "in-progress", "completed", "failed"]

/-- Error responses of `updateTaskStatus`. -/
inductive StatusUpdateError where
  | invalidStatus
  | taskNotFound
  | notAssigned
deriving Repr, DecidableEq

/-- The `updateTaskStatus` handler: validates the status against the
whitelist, finds the task by id, and for agent callers requires
`String(task.assignedTo) === String(req.user.id) ||
String(task.agentId) === String(req.user.id)`; admins skip the check.
On success it sets `task.status = status` and saves, returning the updated
store and the updated task.  On error nothing is written. -/
def updateTaskStatus (store : List Task) (user : Identity) (taskId : Nat)
    (status : String) : Except StatusUpdateError (List Task × Task) :=
  if ¬ allowedStatuses.contains status then .error .invalidStatus
  else
    match store.find? fun t => t.id == taskId with
    | none => .error .taskNotFound
    | some task =>
      if user.role == .agent &&
          !(task.assignedTo == some user.id || task.agentId == some user.id) then
        .error .notAssigned
      else
        let updated := { task with status := status }
        .ok (store.map fun t => if t.id == taskId then updated else t, updated)

/-- Error responses of `reassignTask`: the handler's only explicit failure
is the missing task.  `newAgentId` is never validated. -/
inductive ReassignError where
  | taskNotFound
deriving Repr, DecidableEq

/-- The `reassignTask` handler: finds the task by id, sets
`task.assignedTo = newAgentId` and saves.  `agentId` and `status` are not
touched, and the supplied `newAgentId` is not checked against the agent
collection. -/
def reassignTask (store : List Task) (taskId : Nat) (newAgentId : Option Nat) :
    Except ReassignError (List Task × Task) :=
  match store.find? fun t => t.id == taskId with
  | none => .error .taskNotFound
  | some task =>
    let updated := { task with assignedTo := newAgentId }
    .ok (store.map fun t => if t.id == taskId then updated else t, updated)

/-- Response of `finalizeAssignments`: a fixed message, nothing else.  The
`updateMany` result (which would carry the modified count) is discarded. -/
structure FinalizeResponse where
  message : String
deriving Repr, DecidableEq

/-- The `finalizeAssignments` handler:
`Task.updateMany({ isFinalized: false }, { isFinalized: true })` — every
stored task matching the filter gets the update — followed by a constant
success message. -/
def finalizeAssignments (store : List Task) : List Task × FinalizeResponse :=
  (store.map fun t => if t.isFinalized = false then { t with isFinalized := true } else t,
   { message := "All tasks finalized successfully" })

/-- A concrete agent used in the concrete-input theorems. -/
def agentA : Agent := { id := 1, name := "Alice", email := "alice@x" }

/-- A second concrete agent. -/
def agentB : Agent := { id := 2, name := "Bob", email := "bob@x" }

/-- A parsed row whose person field is a single space: truthy in JS, but empty after trimming. -/
def rowWhitespaceName : Row := { firstName := some " ", phone := some "555", notes := none }

/-- A parsed row with no phone column. -/
def rowMissingPhone : Row := { firstName := some "Bob", phone := none, notes := none }

/-- A valid parsed row. -/
def rowAnn : Row := { firstName := some "Ann", phone := some "555-1111", notes := some "" }

/-- A second valid parsed row. -/
def rowBob : Row := { firstName := some "Bob", phone := some "555-2222", notes := some "urgent" }

/-- A third valid parsed row. -/
def rowCal : Row := { firstName := some "Cal", phone := some "555-3333", notes := none }

/-- A concrete confirm-draft entry whose proposed worker id 7 matches no agent. -/
def entryAnn : DraftEntry := {
  firstName := "Ann", phone := "555", notes := none,
  draftAssignedTo := some 7, agentId := none, assignedTo := none }

/-- A concrete confirm-draft entry with an empty contact name: it violates
the taskSchema required validator, so inserting it fails. -/
def entryEmptyName : DraftEntry := {
  firstName := "", phone := "555", notes := none,
  draftAssignedTo := some 99, agentId := none, assignedTo := none }

/-- A concrete confirm-draft entry with valid required fields whose proposed
worker id 99 matches no agent. -/
def entryBogusWorker : DraftEntry := {
  firstName := "Ann", phone := "555", notes := none,
  draftAssignedTo := some 99, agentId := none, assignedTo := none }

/-- A stored task whose current assignee (assignedTo) is worker 1 while the legacy agentId field still names worker 2. -/
def taskStale : Task := {
  id := 1, firstName := "Ann", phone := "555", notes := "",
  agentId := some 2, assignedTo := some 1, status := "pending", isFinalized := false }

/-- A stored task that is not yet finalized. -/
def taskUnfinalizedA : Task := {
  id := 1, firstName := "Ann", phone := "555", notes := "",
  agentId := some 1, assignedTo := some 1, status := "pending", isFinalized := false }

/-- A second stored task that is not yet finalized. -/
def taskUnfinalizedB : Task := {
  id := 2, firstName := "Bob", phone := "556", notes := "",
  agentId := some 2, assignedTo := some 2, status := "pending", isFinalized := false }

/-- The draft response produced by draftUpload for rows Ann, Bob, Cal and agents agentA, agentB. -/
def respThree : DraftResponse := {
  total := 3,
  draft := [
    { firstName := "Ann", phone := "555-1111", notes := "",
      agentId := 1, assignedTo := 1, draftAssignedTo := agentA },
    { firstName := "Bob", phone := "555-2222", notes := "urgent",
      agentId := 2, assignedTo := 2, draftAssignedTo := agentB },
    { firstName := "Cal", phone := "555-3333", notes := "",
      agentId := 1, assignedTo := 1, draftAssignedTo := agentA } ] }

/-- Among the indices 0, ..., N-1, exactly N / M plus one more when k < N % M are congruent to k modulo M. -/
theorem countP_range_mod (M k : Nat) (hM : 0 < M) (hk : k < M) (N : Nat) :
    (List.range N).countP (fun i => i % M == k)
      = N / M + if k < N % M then 1 else 0 := by
  induction N with
  | zero => simp
  | succ n ih =>
    rw [List.range_succ, List.countP_append, ih]
    have hr : n % M < M := Nat.mod_lt _ hM
    have e1 : n + 1 = M * (n / M) + (n % M + 1) := by
      have hd := Nat.div_add_mod n M
      omega
    rcases Nat.lt_or_ge (n % M + 1) M with hlt | hge
    · have hdiv : (n + 1) / M = n / M := by
        rw [e1, Nat.mul_add_div hM, Nat.div_eq_of_lt hlt, Nat.add_zero]
      have hmod : (n + 1) % M = n % M + 1 := by
        rw [e1, Nat.mul_add_mod, Nat.mod_eq_of_lt hlt]
      rw [hdiv, hmod]
      simp only [List.countP_cons, List.countP_nil, beq_iff_eq, Nat.zero_add]
      split_ifs <;> omega
    · have heq : n % M + 1 = M := by omega
      have hdiv : (n + 1) / M = n / M + 1 := by
        rw [e1, heq, Nat.mul_add_div hM, Nat.div_self hM]
      have hmod : (n + 1) % M = 0 := by
        rw [e1, heq, Nat.mul_add_mod, Nat.mod_self]
      rw [hdiv, hmod]
      simp only [List.countP_cons, List.countP_nil, beq_iff_eq, Nat.zero_add]
      split_ifs <;> omega

/-- When M does not divide N, the ceiling (N + M - 1) / M is one more than the floor N / M. -/
theorem ceil_div_mod_pos (N M : Nat) (hM : 0 < M) (h : 0 < N % M) :
    (N + M - 1) / M = N / M + 1 := by
  have hd := Nat.div_add_mod N M
  have hr : N % M < M := Nat.mod_lt _ hM
  have e1 : N + M - 1 = M * (N / M + 1) + (N % M - 1) := by
    rw [Nat.mul_add, Nat.mul_one]; omega
  rw [e1, Nat.mul_add_div hM,
    Nat.div_eq_of_lt (show N % M - 1 < M by omega)]

/-- Success characterization of updateTaskStatus: valid status, task found, and the permission test not triggered. -/
theorem updateTaskStatus_eq_ok (store : List Task) (user : Identity) (taskId : Nat)
    (status : String) (task : Task)
    (hstatus : allowedStatuses.contains status = true)
    (hfind : store.find? (fun t => t.id == taskId) = some task)
    (hperm : (user.role == Role.agent &&
      !(task.assignedTo == some user.id || task.agentId == some user.id)) = false) :
    updateTaskStatus store user taskId status
      = Except.ok
          (store.map (fun t => if t.id == taskId then { task with status := status } else t),
           { task with status := status }) := by
  unfold updateTaskStatus
  rw [if_neg (by simpa using hstatus)]
  split
  · next heq => rw [hfind] at heq; exact absurd heq (by simp)
  · next t heq =>
    rw [hfind] at heq
    injection heq with heq2
    subst heq2
    rw [if_neg (by rw [hperm]; simp)]

/-- Denial characterization of updateTaskStatus: an agent caller matching neither assignedTo nor agentId is refused. -/
theorem updateTaskStatus_eq_notAssigned (store : List Task) (user : Identity)
    (taskId : Nat) (status : String) (task : Task)
    (hstatus : allowedStatuses.contains status = true)
    (hfind : store.find? (fun t => t.id == taskId) = some task)
    (hperm : (user.role == Role.agent &&
      !(task.assignedTo == some user.id || task.agentId == some user.id)) = true) :
    updateTaskStatus store user taskId status = Except.error StatusUpdateError.notAssigned := by
  unfold updateTaskStatus
  rw [if_neg (by simpa using hstatus)]
  split
  · next heq => rw [hfind] at heq; exact absurd heq (by simp)
  · next t heq =>
    rw [hfind] at heq
    injection heq with heq2
    subst heq2
    rw [if_pos hperm]

/-- Inversion of a successful updateTaskStatus: the status was valid, some task was found, the permission test was passed, and the result is that task with only its status replaced. -/
theorem updateTaskStatus_ok_inv (store : List Task) (user : Identity) (taskId : Nat)
    (status : String) (s : List Task) (upd : Task)
    (h : updateTaskStatus store user taskId status = Except.ok (s, upd)) :
    allowedStatuses.contains status = true ∧
    ∃ task, store.find? (fun t => t.id == taskId) = some task ∧
      (user.role == Role.agent &&
        !(task.assignedTo == some user.id || task.agentId == some user.id)) = false ∧
      upd = { task with status := status } ∧
      s = store.map (fun t => if t.id == taskId then upd else t) := by
  unfold updateTaskStatus at h
  split at h
  · exact absurd h (by simp)
  · next hst =>
    refine ⟨by by_contra hc; exact hst (by simpa using hc), ?_⟩
    split at h
    · exact absurd h (by simp)
    · next t heq =>
      split at h
      · exact absurd h (by simp)
      · next hperm =>
        simp only [Except.ok.injEq, Prod.mk.injEq] at h
        refine ⟨t, heq, by simpa using hperm, h.2.symm, ?_⟩
        rw [← h.1, h.2]

/-- Success characterization of reassignTask: whenever the task is found, the new assignee is written unconditionally. -/
theorem reassignTask_eq_ok (store : List Task) (taskId : Nat) (newAgentId : Option Nat)
    (task : Task) (hfind : store.find? (fun t => t.id == taskId) = some task) :
    reassignTask store taskId newAgentId
      = Except.ok
          (store.map
            (fun t => if t.id == taskId then { task with assignedTo := newAgentId } else t),
           { task with assignedTo := newAgentId }) := by
  unfold reassignTask
  split
  · next heq => rw [hfind] at heq; exact absurd heq (by simp)
  · next t heq =>
    rw [hfind] at heq
    injection heq with heq2
    subst heq2
    rfl

/-- Inversion of a successful reassignTask. -/
theorem reassignTask_ok_inv (store : List Task) (taskId : Nat) (newAgentId : Option Nat)
    (s : List Task) (upd : Task)
    (h : reassignTask store taskId newAgentId = Except.ok (s, upd)) :
    ∃ task, store.find? (fun t => t.id == taskId) = some task ∧
      upd = { task with assignedTo := newAgentId } ∧
      s = store.map (fun t => if t.id == taskId then upd else t) := by
  unfold reassignTask at h
  split at h
  · exact absurd h (by simp)
  · next t heq =>
    simp only [Except.ok.injEq, Prod.mk.injEq] at h
    refine ⟨t, heq, h.2.symm, ?_⟩
    rw [← h.1, h.2]

/-- Replacing the found task by an update with the same id leaves it the task found by a subsequent lookup. -/
theorem find?_map_id_preserving (store : List Task) (taskId : Nat) (task upd : Task)
    (hfind : store.find? (fun t => t.id == taskId) = some task)
    (hid : upd.id = task.id) :
    (store.map (fun t => if t.id == taskId then upd else t)).find? (fun t => t.id == taskId)
      = some upd := by
  have htid := List.find?_some hfind
  rw [List.find?_map]
  have hfun : ((fun t => t.id == taskId) ∘ fun t => if t.id == taskId then upd else t)
      = fun t => t.id == taskId := by
    funext t
    by_cases h : (t.id == taskId) = true
    · simp only [Function.comp_apply, if_pos h, hid]
      rw [htid, h]
    · simp only [Function.comp_apply, if_neg h]
  rw [hfun, hfind]
  simp only [Option.map_some']
  rw [if_pos (by simpa using htid)]

/-- The per-task effect of the finalization sweep is to set isFinalized, whether or not it was already set. -/
theorem finalize_one (t : Task) :
    (if t.isFinalized = false then { t with isFinalized := true } else t)
      = { t with isFinalized := true } := by
  by_cases h : t.isFinalized = false
  · rw [if_pos h]
  · rw [if_neg h]
    have h2 : t.isFinalized = true := by
      cases hb : t.isFinalized
      · exact absurd hb h
      · rfl
    cases t
    simp_all

/-- Claim C1: for a decoded upload with N accepted candidate records and M >= 1 agents, draftUpload pairs the record at position i with the agent at position i mod M, each agent position k receives N / M records plus one more exactly when k < N % M (hence either the floor or the ceiling of N / M), and re-running on the same inputs yields the same pairing. -/
theorem draftUpload_round_robin (agents : List Agent) (rows : List Row)
    (hM : 0 < agents.length) (resp : DraftResponse)
    (hok : draftUpload agents rows = Except.ok resp) :
    resp.draft.length = (parseRows rows).length ∧
    resp.total = (parseRows rows).length ∧
    (∀ i (hi : i < (parseRows rows).length),
      resp.draft[i]? = some
        { firstName := ((parseRows rows).get ⟨i, hi⟩).firstName
          phone := ((parseRows rows).get ⟨i, hi⟩).phone
          notes := ((parseRows rows).get ⟨i, hi⟩).notes
          agentId := (agents.get ⟨i % agents.length, Nat.mod_lt i hM⟩).id
          assignedTo := (agents.get ⟨i % agents.length, Nat.mod_lt i hM⟩).id
          draftAssignedTo := agents.get ⟨i % agents.length, Nat.mod_lt i hM⟩ }) ∧
    (∀ k, k < agents.length →
      (List.range (parseRows rows).length).countP
          (fun i => i % agents.length == k)
        = (parseRows rows).length / agents.length + 
            (if k < (parseRows rows).length % agents.length then 1 else 0) ∧
      ((List.range (parseRows rows).length).countP
          (fun i => i % agents.length == k)
        = (parseRows rows).length / agents.length
      ∨ (List.range (parseRows rows).length).countP
          (fun i => i % agents.length == k)
        = ((parseRows rows).length + agents.length - 1) / agents.length)) ∧
    draftUpload agents rows = draftUpload agents rows := by
  have hne : ¬ (agents.length = 0) := by omega
  unfold draftUpload at hok
  rw [if_neg hne] at hok
  simp only [Except.ok.injEq] at hok
  subst hok
  refine ⟨by simp, by simp, ?_, ?_, rfl⟩
  · intro i hi
    have hi' : i < ((parseRows rows).mapIdx fun index task =>
        let agent := agents.getD (index % agents.length) default
        ({ firstName := task.firstName, phone := task.phone, notes := task.notes,
           agentId := agent.id, assignedTo := agent.id,
           draftAssignedTo := agent } : DraftTask)).length := by
      simpa using hi
    rw [List.getElem?_eq_getElem hi']
    simp only [List.getElem_mapIdx, Option.some.injEq]
    have hb : i % agents.length < agents.length := Nat.mod_lt i hM
    have hgetD : agents.getD (i % agents.length) default
        = agents.get ⟨i % agents.length, hb⟩ := by
      rw [List.getD_eq_getElem?_getD, List.getElem?_eq_getElem hb, Option.getD_some,
        List.get_eq_getElem]
    rw [hgetD]
    simp [List.get_eq_getElem]
  · intro k hk
    constructor
    · exact countP_range_mod agents.length k hM hk (parseRows rows).length
    · rw [countP_range_mod agents.length k hM hk (parseRows rows).length]
      by_cases hcase : k < (parseRows rows).length % agents.length
      · right
        rw [if_pos hcase, ceil_div_mod_pos _ _ hM (by omega)]
      · left
        rw [if_neg hcase]
        omega

/-- Concrete instance of claim C1 with three records and two agents. -/
theorem draftUpload_round_robin_witness :
    respThree.draft[2]? = some
      { firstName := "Cal", phone := "555-3333", notes := "",
        agentId := 1, assignedTo := 1, draftAssignedTo := agentA } ∧
    (List.range (parseRows [rowAnn, rowBob, rowCal]).length).countP
        (fun i => i % ([agentA, agentB] : List Agent).length == 0) = 2 ∧
    (List.range (parseRows [rowAnn, rowBob, rowCal]).length).countP
        (fun i => i % ([agentA, agentB] : List Agent).length == 1) = 1 :=
  ⟨(draftUpload_round_robin [agentA, agentB] [rowAnn, rowBob, rowCal]
      (by decide) respThree rfl).2.2.1 2 (by decide),
   ((draftUpload_round_robin [agentA, agentB] [rowAnn, rowBob, rowCal]
      (by decide) respThree rfl).2.2.2.1 0 (by decide)).1,
   ((draftUpload_round_robin [agentA, agentB] [rowAnn, rowBob, rowCal]
      (by decide) respThree rfl).2.2.2.1 1 (by decide)).1⟩

/-- Claim C2 counterexample: confirmDraft accepts an entry with valid
required fields whose proposed worker id 99 matches no agent and stores
worker 99 unchanged — the proposed worker reference is not re-validated,
no active worker is substituted via the round-robin rule, and nothing in
the response flags a substitution. -/
theorem confirmDraft_no_revalidation_counterexample :
    (confirmDraft [agentA] [entryBogusWorker]
      = Except.ok ([{
          id := 0, firstName := "Ann", phone := "555", notes := "",
          agentId := some 99, assignedTo := some 99, status := "pending",
          isFinalized := false }],
          { message := "Tasks saved successfully", count := 1 })) ∧
    ¬ (99 ∈ ([agentA] : List Agent).map (fun a => a.id)) :=
  ⟨rfl, by decide⟩

/-- Claim C2 amended: required fields are enforced, but by the taskSchema at
insertion rather than by per-entry re-validation: when every processed entry
passes the schema, the batch is inserted verbatim — the stored worker
reference (draftAssignedTo when present, otherwise the entry's own agentId /
assignedTo) is never checked against the agent collection (the result is
identical with an empty agent collection), with no round-robin substitution
and no flag, and every inserted task starts with status pending and
isFinalized false; when any processed entry has an empty firstName or phone
the whole commit fails with a validation error and nothing is inserted, so
no task is ever created with an empty contactName or phone. -/
theorem confirmDraft_amended (agents : List Agent) (tasks : List DraftEntry)
    (h : tasks ≠ []) :
    ((tasks.mapIdx processEntry).all taskSchemaValid = true →
      confirmDraft agents tasks
        = Except.ok (tasks.mapIdx processEntry,
            { message := "Tasks saved successfully", count := tasks.length })) ∧
    ((tasks.mapIdx processEntry).all taskSchemaValid = false →
      confirmDraft agents tasks = Except.error ConfirmError.validationFailed) ∧
    confirmDraft agents tasks = confirmDraft [] tasks ∧
    (∀ inserted resp, confirmDraft agents tasks = Except.ok (inserted, resp) →
      ∀ t, t ∈ inserted → t.firstName ≠ "" ∧ t.phone ≠ "" ∧
        t.status = "pending" ∧ t.isFinalized = false) ∧
    (∀ i (hi : i < tasks.length),
      (tasks.mapIdx processEntry)[i]? = some (processEntry i (tasks.get ⟨i, hi⟩)) ∧
      (processEntry i (tasks.get ⟨i, hi⟩)).status = "pending" ∧
      (processEntry i (tasks.get ⟨i, hi⟩)).isFinalized = false ∧
      (processEntry i (tasks.get ⟨i, hi⟩)).firstName = (tasks.get ⟨i, hi⟩).firstName ∧
      (processEntry i (tasks.get ⟨i, hi⟩)).phone = (tasks.get ⟨i, hi⟩).phone ∧
      (processEntry i (tasks.get ⟨i, hi⟩)).assignedTo
        = ((tasks.get ⟨i, hi⟩).draftAssignedTo).orElse
            (fun _ => (tasks.get ⟨i, hi⟩).assignedTo) ∧
      (processEntry i (tasks.get ⟨i, hi⟩)).agentId
        = ((tasks.get ⟨i, hi⟩).draftAssignedTo).orElse
            (fun _ => (tasks.get ⟨i, hi⟩).agentId)) := by
  have hlen : ¬ (tasks.length = 0) := by simpa using h
  refine ⟨?_, ?_, ?_, ?_, ?_⟩
  · intro hall
    unfold confirmDraft
    rw [if_neg hlen, if_pos hall]
    simp
  · intro hall
    unfold confirmDraft
    rw [if_neg hlen, if_neg (by simp [hall])]
  · unfold confirmDraft
    rw [if_neg hlen]
  · intro inserted resp hok t hmem
    unfold confirmDraft at hok
    rw [if_neg hlen] at hok
    by_cases hall : (tasks.mapIdx processEntry).all taskSchemaValid = true
    · rw [if_pos hall] at hok
      simp only [Except.ok.injEq, Prod.mk.injEq] at hok
      rw [← hok.1] at hmem
      have hv : taskSchemaValid t = true := List.all_eq_true.mp hall t hmem
      obtain ⟨i, hi, hteq⟩ := List.exists_of_mem_mapIdx hmem
      unfold taskSchemaValid at hv
      simp only [Bool.and_eq_true, decide_eq_true_eq] at hv
      refine ⟨hv.1.1, hv.1.2, ?_, ?_⟩
      · rw [← hteq]; rfl
      · rw [← hteq]; rfl
    · rw [if_neg hall] at hok
      exact absurd hok (by simp)
  · intro i hi
    have hi2 : i < (tasks.mapIdx processEntry).length := by simpa using hi
    rw [List.getElem?_eq_getElem hi2]
    simp [List.getElem_mapIdx, processEntry, List.get_eq_getElem]

/-- Concrete instance of claim C2 amended: a schema-valid entry with an
unknown proposed worker is inserted verbatim, and an entry with an empty
contact name makes the whole commit fail with a validation error. -/
theorem confirmDraft_amended_witness :
    confirmDraft [agentA] [entryBogusWorker]
      = Except.ok ([entryBogusWorker].mapIdx processEntry,
          { message := "Tasks saved successfully", count := 1 }) ∧
    confirmDraft [agentA] [entryEmptyName] = Except.error ConfirmError.validationFailed :=
  ⟨(confirmDraft_amended [agentA] [entryBogusWorker] (by decide)).1 (by decide),
   (confirmDraft_amended [agentA] [entryEmptyName] (by decide)).2.1 (by decide)⟩

/-- Claim C3 counterexample: with an empty agent collection, confirmDraft still succeeds on a non-empty entry list — it does not fail with NoWorkersAvailable. -/
theorem confirmDraft_noWorkers_counterexample :
    confirmDraft [] [entryAnn]
      = Except.ok ([{
          id := 0, firstName := "Ann", phone := "555", notes := "",
          agentId := some 7, assignedTo := some 7, status := "pending",
          isFinalized := false }],
         { message := "Tasks saved successfully", count := 1 }) := rfl

/-- Claim C3 amended: only the Distributor (draftUpload) fails with
NoWorkersAvailable when the agent collection is empty, regardless of
candidate count; the Commit Service (confirmDraft) has no worker guard: it
never consults the agent collection (its result is identical for any agent
set), and with zero workers it still succeeds on any non-empty entry list
whose entries carry non-empty firstName and phone. -/
theorem noWorkers_guard_amended (agents : List Agent) (rows : List Row)
    (tasks : List DraftEntry) (h : tasks ≠ [])
    (hvalid : ∀ e ∈ tasks, e.firstName ≠ "" ∧ e.phone ≠ "") :
    draftUpload [] rows = Except.error UploadError.noAgentsAvailable ∧
    confirmDraft agents tasks = confirmDraft [] tasks ∧
    ∃ inserted resp, confirmDraft [] tasks = Except.ok (inserted, resp) ∧
      inserted.length = tasks.length := by
  have hlen : ¬ (tasks.length = 0) := by simpa using h
  have hall : (tasks.mapIdx processEntry).all taskSchemaValid = true := by
    rw [List.all_eq_true]
    intro t hmem
    obtain ⟨i, hi, hteq⟩ := List.exists_of_mem_mapIdx hmem
    have he := hvalid tasks[i] (List.getElem_mem hi)
    rw [← hteq]
    unfold taskSchemaValid processEntry
    simp [he.1, he.2]
  refine ⟨by simp [draftUpload], ?_, ?_⟩
  · unfold confirmDraft
    rw [if_neg hlen]
  · unfold confirmDraft
    rw [if_neg hlen, if_pos hall]
    exact ⟨_, _, rfl, by simp⟩

/-- Concrete instance of claim C3 amended. -/
theorem noWorkers_guard_amended_witness :
    draftUpload [] [rowAnn] = Except.error UploadError.noAgentsAvailable ∧
    confirmDraft [agentA] [entryAnn] = confirmDraft [] [entryAnn] ∧
    (∃ inserted resp, confirmDraft [] [entryAnn] = Except.ok (inserted, resp) ∧
      inserted.length = 1) :=
  ⟨(noWorkers_guard_amended [agentA] [rowAnn] [entryAnn] (by decide) (by decide)).1,
   (noWorkers_guard_amended [agentA] [rowAnn] [entryAnn] (by decide) (by decide)).2.1,
   (noWorkers_guard_amended [agentA] [rowAnn] [entryAnn] (by decide) (by decide)).2.2⟩

/-- Claim C4 counterexample: a row whose person field is a single space is empty after trimming, yet it is not excluded — the truthiness test runs before trimming, so the row is accepted with an empty trimmed name. -/
theorem parseRows_whitespace_counterexample :
    jsTrim " " = "" ∧
    parseRows [rowWhitespaceName] = [{ firstName := "", phone := "555", notes := "" }] ∧
    parseRows [rowWhitespaceName] ≠ [] :=
  ⟨rfl, rfl, by decide⟩

/-- Claim C4 amended: a row is excluded exactly when the person field or the phone field is absent or the empty string before trimming (JS truthiness); whitespace-only fields are accepted and trimmed to empty strings; unrecognized extra columns never affect acceptance; accepted values are trimmed. -/
theorem parseRow_filter_amended (row : Row) (e : List (String × String)) :
    (parseRow row = none ↔ (truthy row.firstName && truthy row.phone) = false) ∧
    (parseRow { row with extra := e } = parseRow row) ∧
    ((truthy row.firstName && truthy row.phone) = true →
      parseRow row = some {
        firstName := jsTrim (row.firstName.getD ""),
        phone := jsTrim (row.phone.getD ""),
        notes := (row.notes.map jsTrim).getD "" }) := by
  unfold parseRow
  by_cases h : (truthy row.firstName && truthy row.phone) = true
  · rw [if_pos h]
    exact ⟨by simp [h], rfl, fun _ => rfl⟩
  · rw [if_neg h]
    exact ⟨by simp [h], rfl, fun h2 => absurd h2 h⟩

/-- Concrete instance of claim C4 amended. -/
theorem parseRow_filter_amended_witness :
    (parseRow rowWhitespaceName = none ↔
      (truthy rowWhitespaceName.firstName && truthy rowWhitespaceName.phone) = false) ∧
    parseRow rowAnn = some { firstName := "Ann", phone := "555-1111", notes := "" } :=
  ⟨(parseRow_filter_amended rowWhitespaceName []).1,
   (parseRow_filter_amended rowAnn []).2.2 (by decide)⟩

/-- Claim C5 counterexample: a worker caller whose id (2) differs from the task assignedTo (1) is nevertheless permitted, because the legacy agentId field (2) also grants access — the claim would require NotAssigned here. -/
theorem updateTaskStatus_assignedOnly_counterexample :
    taskStale.assignedTo = some 1 ∧ (1 : Nat) ≠ 2 ∧
    updateTaskStatus [taskStale] { id := 2, role := Role.agent } 1 "completed"
      = Except.ok ([{ taskStale with status := "completed" }],
          { taskStale with status := "completed" }) :=
  ⟨rfl, by decide, rfl⟩

/-- Claim C5 amended: an admin may update any found task to any allowed status; a worker caller is permitted exactly when the caller id matches the task assignedTo or its legacy agentId, and otherwise receives NotAssigned with no store mutation. -/
theorem updateTaskStatus_permission_amended (store : List Task) (user : Identity)
    (taskId : Nat) (status : String) (task : Task)
    (hstatus : allowedStatuses.contains status = true)
    (hfind : store.find? (fun t => t.id == taskId) = some task) :
    (user.role = Role.admin →
      updateTaskStatus store user taskId status
        = Except.ok
            (store.map (fun t => if t.id == taskId then { task with status := status } else t),
             { task with status := status })) ∧
    (user.role = Role.agent →
      ((task.assignedTo = some user.id ∨ task.agentId = some user.id) →
        updateTaskStatus store user taskId status
          = Except.ok
              (store.map (fun t => if t.id == taskId then { task with status := status } else t),
               { task with status := status })) ∧
      (¬(task.assignedTo = some user.id ∨ task.agentId = some user.id) →
        updateTaskStatus store user taskId status
          = Except.error StatusUpdateError.notAssigned)) := by
  refine ⟨fun hadmin => ?_, fun hagent => ⟨fun hperm => ?_, fun hperm => ?_⟩⟩
  · exact updateTaskStatus_eq_ok _ _ _ _ _ hstatus hfind (by simp [hadmin])
  · exact updateTaskStatus_eq_ok _ _ _ _ _ hstatus hfind
      (by rcases hperm with h | h <;> simp [h])
  · push_neg at hperm
    exact updateTaskStatus_eq_notAssigned _ _ _ _ _ hstatus hfind
      (by simp [hagent, hperm.1, hperm.2])

/-- Concrete instance of claim C5 amended. -/
theorem updateTaskStatus_permission_amended_witness :
    updateTaskStatus [taskStale] { id := 5, role := Role.admin } 1 "completed"
      = Except.ok ([{ taskStale with status := "completed" }],
          { taskStale with status := "completed" }) :=
  (updateTaskStatus_permission_amended [taskStale] { id := 5, role := Role.admin }
    1 "completed" taskStale (by decide) (by decide)).1 rfl

/-- Claim C6 counterexample: reassignTask applies a newAgentId (99) that references no existing agent — there is no WorkerNotFound or WorkerInactive check. -/
theorem reassignTask_no_worker_check_counterexample :
    ¬ (99 ∈ ([agentA, agentB] : List Agent).map (fun a => a.id)) ∧
    reassignTask [taskStale] 1 (some 99)
      = Except.ok ([{ taskStale with assignedTo := some 99 }],
          { taskStale with assignedTo := some 99 }) :=
  ⟨by decide, rfl⟩

/-- Claim C6 amended: reassignTask fails only with TaskNotFound for an unresolvable taskId; when the task is found, the supplied newAgentId is written unconditionally, with no validation against the agent collection. -/
theorem reassignTask_amended (store : List Task) (taskId : Nat) (newAgentId : Option Nat) :
    (store.find? (fun t => t.id == taskId) = none →
      reassignTask store taskId newAgentId = Except.error ReassignError.taskNotFound) ∧
    (∀ task, store.find? (fun t => t.id == taskId) = some task →
      reassignTask store taskId newAgentId
        = Except.ok
            (store.map
              (fun t => if t.id == taskId then { task with assignedTo := newAgentId } else t),
             { task with assignedTo := newAgentId })) := by
  constructor
  · intro hnone
    unfold reassignTask
    split
    · rfl
    · next t heq => rw [hnone] at heq; exact absurd heq (by simp)
  · exact fun task hfind => reassignTask_eq_ok _ _ _ _ hfind

/-- Concrete instance of claim C6 amended. -/
theorem reassignTask_amended_witness :
    reassignTask [taskStale] 1 (some 99)
      = Except.ok ([{ taskStale with assignedTo := some 99 }],
          { taskStale with assignedTo := some 99 }) ∧
    reassignTask [] 1 (some 99) = Except.error ReassignError.taskNotFound :=
  ⟨(reassignTask_amended [taskStale] 1 (some 99)).2 taskStale rfl,
   (reassignTask_amended [] 1 (some 99)).1 rfl⟩

/-- Claim C7 counterexample: a readable upload whose rows all fail validation yields a successful response with total 0 and an empty draft, not an EmptyUpload failure. -/
theorem draftUpload_emptyDraft_counterexample :
    parseRows [rowMissingPhone] = [] ∧
    draftUpload [agentA] [rowMissingPhone] = Except.ok { total := 0, draft := [] } :=
  ⟨rfl, rfl⟩

/-- Claim C7 amended: when agents exist and zero candidate records survive parsing, draftUpload returns a successful, empty draft response. -/
theorem draftUpload_emptyDraft_amended (agents : List Agent) (rows : List Row)
    (hM : 0 < agents.length) (hempty : parseRows rows = []) :
    draftUpload agents rows = Except.ok { total := 0, draft := [] } := by
  unfold draftUpload
  rw [if_neg (by omega)]
  simp [hempty]

/-- Concrete instance of claim C7 amended. -/
theorem draftUpload_emptyDraft_amended_witness :
    draftUpload [agentA] [rowMissingPhone] = Except.ok { total := 0, draft := [] } :=
  draftUpload_emptyDraft_amended [agentA] [rowMissingPhone] (by decide) rfl

/-- Claim C8: a successful updateTaskStatus changes only the status field of the found task (and replaces that task in the store), and a successful reassignTask changes only the assignedTo field; every other modelled task field is unchanged by both operations. -/
theorem lifecycle_frame (store : List Task) (user : Identity) (taskId : Nat)
    (status : String) (newAgentId : Option Nat) :
    (∀ s upd, updateTaskStatus store user taskId status = Except.ok (s, upd) →
      ∃ task, store.find? (fun t => t.id == taskId) = some task ∧
        upd.status = status ∧
        upd.assignedTo = task.assignedTo ∧
        upd.agentId = task.agentId ∧
        upd.id = task.id ∧
        upd.firstName = task.firstName ∧
        upd.phone = task.phone ∧
        upd.notes = task.notes ∧
        upd.isFinalized = task.isFinalized ∧
        s = store.map (fun t => if t.id == taskId then upd else t)) ∧
    (∀ s upd, reassignTask store taskId newAgentId = Except.ok (s, upd) →
      ∃ task, store.find? (fun t => t.id == taskId) = some task ∧
        upd.assignedTo = newAgentId ∧
        upd.status = task.status ∧
        upd.agentId = task.agentId ∧
        upd.id = task.id ∧
        upd.firstName = task.firstName ∧
        upd.phone = task.phone ∧
        upd.notes = task.notes ∧
        upd.isFinalized = task.isFinalized ∧
        s = store.map (fun t => if t.id == taskId then upd else t)) := by
  constructor
  · intro s upd h
    obtain ⟨hst, task, hfind, hperm, hupd, hs⟩ := updateTaskStatus_ok_inv _ _ _ _ _ _ h
    exact ⟨task, hfind, by rw [hupd], by rw [hupd], by rw [hupd], by rw [hupd],
      by rw [hupd], by rw [hupd], by rw [hupd], by rw [hupd], hs⟩
  · intro s upd h
    obtain ⟨task, hfind, hupd, hs⟩ := reassignTask_ok_inv _ _ _ _ _ h
    exact ⟨task, hfind, by rw [hupd], by rw [hupd], by rw [hupd], by rw [hupd],
      by rw [hupd], by rw [hupd], by rw [hupd], by rw [hupd], hs⟩

/-- Concrete instance of claim C8. -/
theorem lifecycle_frame_witness :
    ∃ task, ([taskStale] : List Task).find? (fun t => t.id == 1) = some task ∧
      ({ taskStale with status := "completed" } : Task).status = "completed" ∧
      ({ taskStale with status := "completed" } : Task).assignedTo = task.assignedTo ∧
      ({ taskStale with status := "completed" } : Task).agentId = task.agentId ∧
      ({ taskStale with status := "completed" } : Task).id = task.id ∧
      ({ taskStale with status := "completed" } : Task).firstName = task.firstName ∧
      ({ taskStale with status := "completed" } : Task).phone = task.phone ∧
      ({ taskStale with status := "completed" } : Task).notes = task.notes ∧
      ({ taskStale with status := "completed" } : Task).isFinalized = task.isFinalized ∧
      [{ taskStale with status := "completed" }]
        = [taskStale].map (fun t => if t.id == 1 then { taskStale with status := "completed" } else t) :=
  (lifecycle_frame [taskStale] { id := 9, role := Role.admin } 1 "completed" (some 2)).1
    [{ taskStale with status := "completed" }] { taskStale with status := "completed" } rfl

/-- Claim C9 counterexample: two stores with different numbers of affected tasks (1 and 2) produce the same fixed response — finalizeAssignments discards the update count and returns only a constant message, so it does not return the count of tasks affected. -/
theorem finalizeAssignments_no_count_counterexample :
    List.countP (fun t => !t.isFinalized) [taskUnfinalizedA] = 1 ∧
    List.countP (fun t => !t.isFinalized) [taskUnfinalizedA, taskUnfinalizedB] = 2 ∧
    (finalizeAssignments [taskUnfinalizedA]).2
      = (finalizeAssignments [taskUnfinalizedA, taskUnfinalizedB]).2 ∧
    (finalizeAssignments [taskUnfinalizedA]).2 = { message := "All tasks finalized successfully" } :=
  ⟨by decide, by decide, rfl, rfl⟩

/-- Claim C9 amended: finalizeAssignments sets isFinalized on exactly the tasks where it is false (all other fields unchanged), is idempotent on the store, and returns a constant success message carrying no count. -/
theorem finalizeAssignments_amended (store : List Task) :
    (finalizeAssignments store).1.length = store.length ∧
    (∀ i (hi : i < store.length),
      (finalizeAssignments store).1[i]? = some { store.get ⟨i, hi⟩ with isFinalized := true }) ∧
    (finalizeAssignments (finalizeAssignments store).1).1 = (finalizeAssignments store).1 ∧
    (finalizeAssignments store).2 = { message := "All tasks finalized successfully" } := by
  refine ⟨by simp [finalizeAssignments], ?_, ?_, rfl⟩
  · intro i hi
    unfold finalizeAssignments
    simp only [List.getElem?_map]
    rw [List.getElem?_eq_getElem hi]
    simp only [Option.map_some']
    rw [finalize_one]
    simp [List.get_eq_getElem]
  · unfold finalizeAssignments
    simp only [List.map_map]
    apply List.map_congr_left
    intro t _
    simp only [Function.comp_apply, finalize_one]

/-- Concrete instance of claim C9 amended. -/
theorem finalizeAssignments_amended_witness :
    (finalizeAssignments [taskUnfinalizedA]).1.length
      = ([taskUnfinalizedA] : List Task).length ∧
    (finalizeAssignments [taskUnfinalizedA]).1[0]?
      = some { taskUnfinalizedA with isFinalized := true } :=
  ⟨(finalizeAssignments_amended [taskUnfinalizedA]).1,
   (finalizeAssignments_amended [taskUnfinalizedA]).2.1 0 (by decide)⟩

/-- Claim C10: a worker caller passes the updateTaskStatus permission test exactly when the caller id equals the task assignedTo or its legacy agentId; reassignTask rewrites only assignedTo, so a worker still named by the stale agentId can update the task status after it has been reassigned away. -/
theorem staleAgentId_permits_update (store : List Task) (caller : Identity)
    (taskId : Nat) (status : String) (task : Task) (newAgentId : Option Nat)
    (hrole : caller.role = Role.agent)
    (hstatus : allowedStatuses.contains status = true)
    (hfind : store.find? (fun t => t.id == taskId) = some task) :
    ((∃ out, updateTaskStatus store caller taskId status = Except.ok out) ↔
      (task.assignedTo = some caller.id ∨ task.agentId = some caller.id)) ∧
    (task.agentId = some caller.id →
      ∀ s upd, reassignTask store taskId newAgentId = Except.ok (s, upd) →
        upd.agentId = some caller.id ∧
        upd.assignedTo = newAgentId ∧
        ∃ s2 upd2, updateTaskStatus s caller taskId status = Except.ok (s2, upd2) ∧
          upd2.status = status) := by
  constructor
  · constructor
    · rintro ⟨out, hout⟩
      obtain ⟨-, t2, hfind2, hperm, -, -⟩ :=
        updateTaskStatus_ok_inv _ _ _ _ out.1 out.2 hout
      rw [hfind] at hfind2
      injection hfind2 with he
      subst he
      rw [hrole] at hperm
      exact or_iff_not_imp_left.mpr (by simpa using hperm)
    · intro hperm
      exact ⟨_, updateTaskStatus_eq_ok _ _ _ _ _ hstatus hfind
        (by rcases hperm with h | h <;> simp [h])⟩
  · intro hstale s upd hre
    obtain ⟨t2, hfind2, hupd, hs⟩ := reassignTask_ok_inv _ _ _ _ _ hre
    rw [hfind] at hfind2
    injection hfind2 with he
    subst he
    subst hupd
    subst hs
    refine ⟨by simpa using hstale, rfl, ?_⟩
    have hfind3 := find?_map_id_preserving store taskId task
      { task with assignedTo := newAgentId } hfind rfl
    exact ⟨_, _, updateTaskStatus_eq_ok _ _ _ _ _ hstatus hfind3 (by simp [hstale]), rfl⟩

/-- Concrete instance of claim C10. -/
theorem staleAgentId_permits_update_witness :
    ({ taskStale with assignedTo := some 3 } : Task).agentId = some 2 ∧
    ({ taskStale with assignedTo := some 3 } : Task).assignedTo = some 3 ∧
    ∃ s2 upd2,
      updateTaskStatus [{ taskStale with assignedTo := some 3 }]
          { id := 2, role := Role.agent } 1 "completed"
        = Except.ok (s2, upd2) ∧ upd2.status = "completed" :=
  (staleAgentId_permits_update [taskStale] { id := 2, role := Role.agent } 1 "completed"
    taskStale (some 3) rfl (by decide) rfl).2 rfl
    [{ taskStale with assignedTo := some 3 }] { taskStale with assignedTo := some 3 } rfl

end TaskApp
